import Mathlib

/-!
Shallow embedding of the core of the `algorithmic-trading-python` repository:
the batcher (`chunks_generator`), the HQM (high-quality momentum) table of
notebook `002_quantitative_momentum_strategy.ipynb`, scipy's
`stats.percentileofscore` as called there, the momentum-score aggregation,
the `dropna` filtering, and the share allocation loops of both notebooks.
Prices and returns are modelled as exact rationals.
-/

namespace AlgoTrading

/-- scipy `stats.percentileofscore(a, score)` with the default `kind = 'rank'`:
`left = count(a < score)`, `right = count(a <= score)`,
`pct = (right + left + (1 if right > left else 0)) * 50 / n`.
The result is a percentage in `[0, 100]`. -/
def percentileofscore (a : List ℚ) (score : ℚ) : ℚ :=
  let left : ℕ := (a.filter (fun x => x < score)).length
  let right : ℕ := (a.filter (fun x => x ≤ score)).length
  ((left : ℚ) + (right : ℚ) + (if left < right then 1 else 0)) * 50 / (a.length : ℚ)

/-- Cell 21 of the momentum notebook:
`stats.percentileofscore(hqm_df[return_col], hqm_df.loc[row, return_col]) / 100`,
the percentile stored in each `*_return_percentile` column. -/
def returnPercentile (a : List ℚ) (score : ℚ) : ℚ :=
  percentileofscore a score / 100

/-- The batcher `chunks_generator(lst, n)` for a positive step `n`:
`for i in range(0, len(lst), n): yield lst[i:i + n]`. -/
def chunks_generator : List α → ℕ → List (List α)
  | [], _ => []
  | _ :: _, 0 => []
  | x :: xs, m + 1 =>
    (x :: xs).take (m + 1) :: chunks_generator ((x :: xs).drop (m + 1)) (m + 1)
termination_by lst _ => lst.length
decreasing_by
  simp only [List.length_drop]
  exact Nat.sub_lt (Nat.succ_pos _) (Nat.succ_pos _)

/-- The batcher `chunks_generator(lst, n)` over all integer steps, with
Python `range` semantics: `range(0, len(lst), 0)` raises
`ValueError: range() arg 3 must not be zero`, and a negative step gives an
empty `range(0, len(lst), n)` (since `len(lst) ≥ 0 = start`), hence no
batches and no error. -/
def chunksE (lst : List α) (n : ℤ) : Except String (List (List α)) :=
  if n = 0 then Except.error "range() arg 3 must not be zero"
  else if n < 0 then Except.ok []
  else Except.ok (chunks_generator lst n.toNat)

/-- One row of `hqm_df` (cell 18 of the momentum notebook), column for column.
Columns filled with `pd.NA` are `none`; return and percentile values are
exact rationals; `num_of_shares_to_buy` is an integer once written. -/
structure HqmRow where
  ticker : String
  stock_price : ℚ
  num_of_shares_to_buy : Option ℤ
  one_year_return : Option ℚ
  one_year_return_percentile : Option ℚ
  six_month_return : Option ℚ
  six_month_return_percentile : Option ℚ
  three_month_return : Option ℚ
  three_month_return_percentile : Option ℚ
  one_month_return : Option ℚ
  one_month_return_percentile : Option ℚ
  momentum_score : Option ℚ
deriving DecidableEq

/-- The per-symbol payload of one batch response:
`data[symbol]["price"]` and the four `data[symbol]["stats"][...]` change
fields, each of which the API may return as `null` (`none`). -/
structure QuoteData where
  price : ℚ
  year1ChangePercent : Option ℚ
  month6ChangePercent : Option ℚ
  month3ChangePercent : Option ℚ
  month1ChangePercent : Option ℚ
deriving DecidableEq

/-- The `pd.Series` appended for one symbol in cell 18: price and the four
returns from the response, every percentile and the share count `pd.NA`. -/
def buildRow (symbol : String) (d : QuoteData) : HqmRow :=
  { ticker := symbol
    stock_price := d.price
    num_of_shares_to_buy := none
    one_year_return := d.year1ChangePercent
    one_year_return_percentile := none
    six_month_return := d.month6ChangePercent
    six_month_return_percentile := none
    three_month_return := d.month3ChangePercent
    three_month_return_percentile := none
    one_month_return := d.month1ChangePercent
    one_month_return_percentile := none
    momentum_score := none }

/-- The inner loop of cell 18: for every symbol of the batch the response is
indexed as `data[symbol]`; a symbol missing from the response raises
`KeyError` at that iteration and aborts the run, so the whole build fails
and no table is produced. -/
def buildRows (batch : List String) (data : String → Option QuoteData) :
    Except String (List HqmRow) :=
  match batch with
  | [] => Except.ok []
  | symbol :: rest =>
    match data symbol with
    | none => Except.error ("KeyError: " ++ symbol)
    | some d =>
      match buildRows rest data with
      | Except.error e => Except.error e
      | Except.ok rows => Except.ok (buildRow symbol d :: rows)

/-- Cell 19: `hqm_df = hqm_df.dropna(subset=["one_year_return"])` — only rows
whose `one_year_return` is `NA` are removed. -/
def dropna_one_year (rows : List HqmRow) : List HqmRow :=
  rows.filter (fun r => r.one_year_return.isSome)

/-- The values present in one return column of the table. -/
def column (f : HqmRow → Option ℚ) (rows : List HqmRow) : List ℚ :=
  rows.filterMap f

/-- The body of the cell-21 loop for one row: each `*_return_percentile`
column receives `percentileofscore(hqm_df[return_col], value) / 100`
computed against the corresponding column of the whole table. -/
def computeRowPercentiles (tbl : List HqmRow) (r : HqmRow) : HqmRow :=
  { r with
    one_year_return_percentile :=
      r.one_year_return.map (returnPercentile (column HqmRow.one_year_return tbl))
    six_month_return_percentile :=
      r.six_month_return.map (returnPercentile (column HqmRow.six_month_return tbl))
    three_month_return_percentile :=
      r.three_month_return.map (returnPercentile (column HqmRow.three_month_return tbl))
    one_month_return_percentile :=
      r.one_month_return.map (returnPercentile (column HqmRow.one_month_return tbl)) }

/-- Cell 21: the percentile loop over every row of the table. -/
def computePercentiles (tbl : List HqmRow) : List HqmRow :=
  tbl.map (computeRowPercentiles tbl)

/-- Cell 23, exactly as written: `momentum_percentiles` collects
`hqm_df.loc[row, f"{time_period}_return"]` — the four RAW return columns,
not the `_return_percentile` columns — and `momentum_score` is their
`statistics.mean`. `none` when any of the four returns is missing. -/
def momentum_score_update (r : HqmRow) : HqmRow :=
  { r with momentum_score :=
      match r.one_year_return, r.six_month_return,
            r.three_month_return, r.one_month_return with
      | some a, some b, some c, some d => some ((a + b + c + d) / 4)
      | _, _, _, _ => none }

/-- Cell 23: the momentum-score loop over every row of the table. -/
def computeMomentum (tbl : List HqmRow) : List HqmRow :=
  tbl.map momentum_score_update

/-- The value of each row's four percentile columns averaged, as the
notebook's own markdown documents the HQM score ("the arithmetic mean of
the 4 momentum percentile scores"); used to exhibit the divergence of
cell 23 from that documentation. -/
def percentileMean (r : HqmRow) : Option ℚ :=
  match r.one_year_return_percentile, r.six_month_return_percentile,
        r.three_month_return_percentile, r.one_month_return_percentile with
  | some a, some b, some c, some d => some ((a + b + c + d) / 4)
  | _, _, _, _ => none

/-- Cell 27: `position_size = 1_000_000/len(hqm_df.index)` with the budget a
parameter; `n` is the length of the final, post-selection table. -/
def position_size (portfolio_size : ℚ) (n : ℕ) : ℚ :=
  portfolio_size / (n : ℚ)

/-- The cell-27 loop: each row's `num_of_shares_to_buy` becomes
`math.floor(position_size / stock_price)`; no other column is written. -/
def allocate (portfolio_size : ℚ) (rows : List HqmRow) : List HqmRow :=
  rows.map (fun r =>
    { r with
      num_of_shares_to_buy :=
        some (Int.floor (position_size portfolio_size rows.length / r.stock_price)) })

/-- One row of the equal-weight notebook's `df`
(columns `ticker, stock_price, market_cap, num_of_shares_to_buy`). -/
structure EqRow where
  ticker : String
  stock_price : ℚ
  market_cap : ℚ
  num_of_shares_to_buy : Option ℤ
deriving DecidableEq

/-- The equal-weight notebook's allocation loop
(`df.loc[i, "num_of_shares_to_buy"] = math.floor(position_size/df.loc[i, "stock_price"])`,
with `position_size = portfolio_size/len(df.index)`). -/
def allocateEq (portfolio_size : ℚ) (rows : List EqRow) : List EqRow :=
  rows.map (fun r =>
    { r with
      num_of_shares_to_buy :=
        some (Int.floor (position_size portfolio_size rows.length / r.stock_price)) })

/-! ### Lemmas about `percentileofscore` -/

lemma length_filter_le_eq_add (col : List ℚ) (v : ℚ) :
    (col.filter (fun x => x ≤ v)).length
      = (col.filter (fun x => x < v)).length + (col.filter (fun x => x = v)).length := by
  induction col with
  | nil => simp
  | cons x xs ih =>
    rcases lt_trichotomy x v with hlt | heq | hgt
    · simp only [List.filter_cons, decide_eq_true_eq, if_pos hlt, if_pos (le_of_lt hlt),
        if_neg (ne_of_lt hlt), List.length_cons]
      omega
    · subst heq
      simp [List.filter_cons, lt_irrefl]
      omega
    · simp only [List.filter_cons, decide_eq_true_eq, if_neg (not_le_of_gt hgt),
        if_neg (not_lt_of_gt hgt), if_neg (ne_of_gt hgt)]
      exact ih

lemma count_eq_pos_of_mem {col : List ℚ} {v : ℚ} (hv : v ∈ col) :
    0 < (col.filter (fun x => x = v)).length :=
  List.length_pos.mpr (List.ne_nil_of_mem (List.mem_filter.mpr ⟨hv, by simp⟩))

lemma filter_lt_length_lt_filter_le {col : List ℚ} {v : ℚ} (hv : v ∈ col) :
    (col.filter (fun x => x < v)).length < (col.filter (fun x => x ≤ v)).length := by
  have h := length_filter_le_eq_add col v
  have hp := count_eq_pos_of_mem hv
  omega

lemma length_pos_q {col : List ℚ} {v : ℚ} (hv : v ∈ col) :
    (0 : ℚ) < (col.length : ℚ) := by
  exact_mod_cast List.length_pos.mpr (List.ne_nil_of_mem hv)

/-- For a score drawn from the column, the `kind='rank'` percentile equals
`(count(< v) + count(≤ v) + 1) / (2 n)`. -/
lemma returnPercentile_formula (col : List ℚ) (v : ℚ) (hv : v ∈ col) :
    returnPercentile col v =
      (((col.filter (fun x => x < v)).length : ℚ)
        + ((col.filter (fun x => x ≤ v)).length : ℚ) + 1) / (2 * (col.length : ℚ)) := by
  have hlt := filter_lt_length_lt_filter_le hv
  have hn := length_pos_q hv
  unfold returnPercentile percentileofscore
  simp only [if_pos hlt]
  field_simp
  ring

lemma returnPercentile_nonneg (col : List ℚ) (v : ℚ) (hv : v ∈ col) :
    0 ≤ returnPercentile col v := by
  rw [returnPercentile_formula col v hv]
  have hn := length_pos_q hv
  positivity

lemma one_div_n_le_returnPercentile (col : List ℚ) (v : ℚ) (hv : v ∈ col) :
    1 / (col.length : ℚ) ≤ returnPercentile col v := by
  have hlt := filter_lt_length_lt_filter_le hv
  have hn := length_pos_q hv
  rw [returnPercentile_formula col v hv, div_le_div_iff₀ hn (by positivity)]
  have h2 : (1 : ℚ) ≤ ((col.filter (fun x => x ≤ v)).length : ℚ) := by
    exact_mod_cast Nat.one_le_iff_ne_zero.mpr (by omega)
  have h0 : (0 : ℚ) ≤ ((col.filter (fun x => x < v)).length : ℚ) := by positivity
  nlinarith

lemma returnPercentile_le_one (col : List ℚ) (v : ℚ) (hv : v ∈ col) :
    returnPercentile col v ≤ 1 := by
  have hsplit := length_filter_le_eq_add col v
  have hp := count_eq_pos_of_mem hv
  have hRn : (col.filter (fun x => x ≤ v)).length ≤ col.length :=
    List.length_filter_le _ _
  have hn := length_pos_q hv
  rw [returnPercentile_formula col v hv, div_le_one (by positivity)]
  have hsum : (col.filter (fun x => x < v)).length
      + (col.filter (fun x => x ≤ v)).length + 1 ≤ 2 * col.length := by omega
  calc ((col.filter (fun x => x < v)).length : ℚ)
        + ((col.filter (fun x => x ≤ v)).length : ℚ) + 1
      ≤ (2 * col.length : ℕ) := by exact_mod_cast hsum
    _ = 2 * (col.length : ℚ) := by push_cast; ring

/-- A value attained exactly once and at least every other value has
`kind='rank'` percentile exactly 1. -/
lemma returnPercentile_max_unique (col : List ℚ) (v : ℚ) (hv : v ∈ col)
    (hmax : ∀ x ∈ col, x ≤ v)
    (huniq : (col.filter (fun x => x = v)).length = 1) :
    returnPercentile col v = 1 := by
  have hR : col.filter (fun x => x ≤ v) = col :=
    List.filter_eq_self.mpr (fun a ha => by simpa using hmax a ha)
  have hsplit := length_filter_le_eq_add col v
  have hn := length_pos_q hv
  have hnn : 0 < col.length := List.length_pos.mpr (List.ne_nil_of_mem hv)
  rw [returnPercentile_formula col v hv, hR] at *
  have hL : ((col.filter (fun x => x < v)).length : ℚ) = (col.length : ℚ) - 1 := by
    have : (col.filter (fun x => x < v)).length + 1 = col.length := by omega
    push_cast [← this]
    ring
  rw [hL]
  field_simp
  ring

lemma returnPercentile_singleton (w : ℚ) : returnPercentile [w] w = 1 := by
  norm_num [returnPercentile, percentileofscore, List.filter, lt_irrefl]

/-! ### Claim C1 -/

/-- Claim C1 (amended): for every return column and every value `v` drawn
from it, the computed percentile rank — scipy `percentileofscore` with the
default `kind='rank'`, divided by 100 — equals
`(count(< v) + count(≤ v) + 1) / (2 n)` (the mean-rank convention), not
`count(≤ v) / n`, and is a fraction in `[0, 1]`; in particular, for the
column of one-year returns `[0.1, 0.2, 0.3, 0.3]` the percentile of `0.3`
is `0.875` and the percentile of `0.1` is `0.25`. -/
theorem C1_percentile_mean_rank (col : List ℚ) (v : ℚ) (hv : v ∈ col) :
    returnPercentile col v =
      (((col.filter (fun x => x < v)).length : ℚ)
        + ((col.filter (fun x => x ≤ v)).length : ℚ) + 1) / (2 * (col.length : ℚ))
    ∧ 0 ≤ returnPercentile col v ∧ returnPercentile col v ≤ 1
    ∧ returnPercentile [1/10, 2/10, 3/10, 3/10] (3/10) = 7/8
    ∧ returnPercentile [1/10, 2/10, 3/10, 3/10] (1/10) = 1/4 :=
  ⟨returnPercentile_formula col v hv, returnPercentile_nonneg col v hv,
   returnPercentile_le_one col v hv,
   by norm_num [returnPercentile, percentileofscore, List.filter],
   by norm_num [returnPercentile, percentileofscore, List.filter]⟩

/-- Claim C1, witness at the one-element column `[0]`. -/
theorem C1_percentile_mean_rank_witness :
    (0 : ℚ) ∈ ([0] : List ℚ)
    ∧ (returnPercentile [0] 0 =
        (((([0] : List ℚ).filter (fun x => x < 0)).length : ℚ)
          + ((([0] : List ℚ).filter (fun x => x ≤ 0)).length : ℚ) + 1)
          / (2 * ((([0] : List ℚ).length : ℚ)))
      ∧ 0 ≤ returnPercentile [0] 0 ∧ returnPercentile [0] 0 ≤ 1
      ∧ returnPercentile [1/10, 2/10, 3/10, 3/10] (3/10) = 7/8
      ∧ returnPercentile [1/10, 2/10, 3/10, 3/10] (1/10) = 1/4) :=
  ⟨by norm_num, C1_percentile_mean_rank [0] 0 (by norm_num)⟩

/-- Claim C1 counterexample: on the column `[0.1, 0.2, 0.3, 0.3]` the
claimed convention `count(≤ v)/n` gives `1` for `v = 0.3`, but the code's
percentile of `0.3` is `0.875 ≠ 1`. -/
theorem C1_percentile_counterexample :
    ((([1/10, 2/10, 3/10, 3/10] : List ℚ).filter (fun x => x ≤ 3/10)).length : ℚ)
        / ((([1/10, 2/10, 3/10, 3/10] : List ℚ).length : ℚ)) = 1
    ∧ returnPercentile [1/10, 2/10, 3/10, 3/10] (3/10) ≠ 1 := by
  constructor
  · norm_num [List.filter]
  · norm_num [returnPercentile, percentileofscore, List.filter]

/-! ### Claim C7 -/

/-- Claim C7 (amended): every percentile computed for a value drawn from a
column of `n ≥ 1` rows satisfies `0 ≤ p ≤ 1`; the row holding the column's
maximum value has percentile exactly 1.0 when that maximum is attained by a
single row (a tied maximum falls short of 1.0); every row's percentile —
the minimum's included — is at least `1/n`; and with `n = 1` the sole row
has percentile 1.0. -/
theorem C7_percentile_bounds (col : List ℚ) (v : ℚ) (hv : v ∈ col) :
    (0 ≤ returnPercentile col v ∧ returnPercentile col v ≤ 1)
    ∧ 1 / (col.length : ℚ) ≤ returnPercentile col v
    ∧ ((∀ x ∈ col, x ≤ v) → (col.filter (fun x => x = v)).length = 1 →
        returnPercentile col v = 1)
    ∧ (∀ w : ℚ, returnPercentile [w] w = 1) :=
  ⟨⟨returnPercentile_nonneg col v hv, returnPercentile_le_one col v hv⟩,
   one_div_n_le_returnPercentile col v hv,
   fun hmax huniq => returnPercentile_max_unique col v hv hmax huniq,
   returnPercentile_singleton⟩

/-- Claim C7, witness at the one-element column `[0]`. -/
theorem C7_percentile_bounds_witness :
    (0 : ℚ) ∈ ([0] : List ℚ)
    ∧ ((0 ≤ returnPercentile [0] 0 ∧ returnPercentile [0] 0 ≤ 1)
      ∧ 1 / ((([0] : List ℚ).length : ℚ)) ≤ returnPercentile [0] 0
      ∧ ((∀ x ∈ ([0] : List ℚ), x ≤ 0) →
          (([0] : List ℚ).filter (fun x => x = 0)).length = 1 →
          returnPercentile [0] 0 = 1)
      ∧ (∀ w : ℚ, returnPercentile [w] w = 1)) :=
  ⟨by norm_num, C7_percentile_bounds [0] 0 (by norm_num)⟩

/-- Claim C7 counterexample: in the column `[0.3, 0.3]` the maximum `0.3` is
attained by both rows, and the code computes its percentile as `0.75`, not
exactly `1.0`. -/
theorem C7_percentile_counterexample :
    (∀ x ∈ ([3/10, 3/10] : List ℚ), x ≤ 3/10)
    ∧ (3/10 : ℚ) ∈ ([3/10, 3/10] : List ℚ)
    ∧ returnPercentile [3/10, 3/10] (3/10) = 3/4
    ∧ returnPercentile [3/10, 3/10] (3/10) ≠ 1 := by
  refine ⟨by norm_num, by norm_num, ?_, ?_⟩ <;>
    norm_num [returnPercentile, percentileofscore, List.filter]

/-! ### Lemmas about `chunks_generator` -/

lemma chunks_generator_flatten_aux {α : Type} (k : ℕ) :
    ∀ (lst : List α) (n : ℕ), lst.length ≤ k → 0 < n →
      (chunks_generator lst n).flatten = lst := by
  induction k with
  | zero =>
    intro lst n hl _
    have : lst = [] := List.eq_nil_of_length_eq_zero (Nat.le_zero.mp hl)
    subst this
    simp [chunks_generator]
  | succ k ih =>
    intro lst n hl hn
    match lst, n with
    | [], _ => simp [chunks_generator]
    | x :: xs, m + 1 =>
      rw [chunks_generator, List.flatten_cons,
        ih ((x :: xs).drop (m + 1)) (m + 1) ?_ hn]
      · exact List.take_append_drop _ _
      · rw [List.length_drop]
        simp only [List.length_cons] at hl ⊢
        omega

/-- Concatenating all batches reproduces the input list. -/
lemma chunks_generator_flatten {α : Type} (lst : List α) (n : ℕ) (hn : 0 < n) :
    (chunks_generator lst n).flatten = lst :=
  chunks_generator_flatten_aux lst.length lst n le_rfl hn

lemma chunks_generator_length_le_aux {α : Type} (k : ℕ) :
    ∀ (lst : List α) (n : ℕ), lst.length ≤ k →
      ∀ b ∈ chunks_generator lst n, b.length ≤ n := by
  induction k with
  | zero =>
    intro lst n hl
    have : lst = [] := List.eq_nil_of_length_eq_zero (Nat.le_zero.mp hl)
    subst this
    simp [chunks_generator]
  | succ k ih =>
    intro lst n hl b hb
    match lst, n with
    | [], _ => simp [chunks_generator] at hb
    | _ :: _, 0 => simp [chunks_generator] at hb
    | x :: xs, m + 1 =>
      rw [chunks_generator] at hb
      rcases List.mem_cons.mp hb with hb | hb
      · subst hb
        rw [List.length_take]
        omega
      · refine ih ((x :: xs).drop (m + 1)) (m + 1) ?_ b hb
        rw [List.length_drop]
        simp only [List.length_cons] at hl ⊢
        omega

/-- Every batch has length at most `n`. -/
lemma chunks_generator_length_le {α : Type} (lst : List α) (n : ℕ) :
    ∀ b ∈ chunks_generator lst n, b.length ≤ n :=
  chunks_generator_length_le_aux lst.length lst n le_rfl

/-- A nonempty list no longer than the batch size gives a single batch. -/
lemma chunks_generator_single {α : Type} (lst : List α) (n : ℕ)
    (h0 : lst ≠ []) (hle : lst.length ≤ n) : chunks_generator lst n = [lst] := by
  match lst, n with
  | x :: xs, 0 => simp at hle
  | x :: xs, m + 1 =>
    rw [chunks_generator, List.take_of_length_le hle, List.drop_eq_nil_of_le hle]
    simp [chunks_generator]

/-! ### Claim C4 -/

/-- Claim C4 (amended): for every symbol list `L` and every batch size
`k > 0`, the batcher yields contiguous sub-sequences whose concatenation
reproduces `L` exactly in the original order, every batch has length
`≤ k`, and the empty list yields an empty sequence of batches; when `L` is
nonempty, `k ≥ |L|` yields a single batch (an empty `L` yields zero
batches even though `k ≥ |L|`). -/
theorem C4_batching_completeness {α : Type} (L : List α) (k : ℕ) (hk : 0 < k) :
    (chunks_generator L k).flatten = L
    ∧ (∀ b ∈ chunks_generator L k, b.length ≤ k)
    ∧ chunks_generator ([] : List α) k = []
    ∧ (L ≠ [] → L.length ≤ k → chunks_generator L k = [L]) :=
  ⟨chunks_generator_flatten L k hk, chunks_generator_length_le L k,
   by simp [chunks_generator],
   fun h0 hle => chunks_generator_single L k h0 hle⟩

/-- Claim C4, witness at `L = [1, 2, 3]`, `k = 2`. -/
theorem C4_batching_completeness_witness :
    0 < 2
    ∧ ((chunks_generator [1, 2, 3] 2).flatten = [1, 2, 3]
      ∧ (∀ b ∈ chunks_generator [1, 2, 3] 2, b.length ≤ 2)
      ∧ chunks_generator ([] : List ℕ) 2 = []
      ∧ (([1, 2, 3] : List ℕ) ≠ [] → ([1, 2, 3] : List ℕ).length ≤ 2 →
          chunks_generator [1, 2, 3] 2 = [[1, 2, 3]])) :=
  ⟨by decide, C4_batching_completeness [1, 2, 3] 2 (by decide)⟩

/-- Claim C4 counterexample: for the empty list and `k = 1 ≥ 0 = |L|` the
batcher yields zero batches, not a single batch, so the unqualified
"`k ≥ |L|` yields a single batch" clause fails on empty input. -/
theorem C4_batching_counterexample :
    chunks_generator ([] : List ℕ) 1 = []
    ∧ (chunks_generator ([] : List ℕ) 1).length ≠ 1 := by
  constructor
  · simp [chunks_generator]
  · simp [chunks_generator]

/-! ### Claim C9 -/

/-- Claim C9 (amended): a batch size of exactly 0 makes the batcher fail
(`range`'s zero-step `ValueError`, an input-validation error, with no
batches produced), but a strictly negative batch size does not fail: the
underlying `range(0, len(lst), n)` is empty, so the batcher silently
yields no batches at all. -/
theorem C9_batcher_nonpositive {α : Type} (lst : List α) (n : ℤ) (hn : n ≤ 0) :
    (n = 0 → chunksE lst n = Except.error "range() arg 3 must not be zero")
    ∧ (n < 0 → chunksE lst n = Except.ok []) := by
  constructor
  · intro h0
    simp [chunksE, h0]
  · intro hneg
    have : ¬ n = 0 := by omega
    simp [chunksE, this, hneg]

/-- Claim C9, witness at `lst = [1, 2, 3]`, `n = 0`. -/
theorem C9_batcher_nonpositive_witness :
    (0 : ℤ) ≤ 0
    ∧ (((0 : ℤ) = 0 →
        chunksE [1, 2, 3] 0 = Except.error "range() arg 3 must not be zero")
      ∧ ((0 : ℤ) < 0 → chunksE [1, 2, 3] 0 = Except.ok [])) :=
  ⟨le_refl 0, C9_batcher_nonpositive [1, 2, 3] 0 (le_refl 0)⟩

/-- Claim C9 counterexample: at batch size `-1` the batcher does not fail:
it returns successfully with no batches, so not every non-positive batch
size is an input-validation failure. -/
theorem C9_batcher_counterexample :
    chunksE ([1, 2, 3] : List ℕ) (-1) = Except.ok [] := by
  simp [chunksE]

/-! ### Allocation: concrete Scenario-A rows -/

/-- Scenario A, row X: price 10, one-year return 0.5. -/
def rowX : HqmRow :=
  { ticker := "X", stock_price := 10, num_of_shares_to_buy := none
    one_year_return := some (1/2), one_year_return_percentile := none
    six_month_return := none, six_month_return_percentile := none
    three_month_return := none, three_month_return_percentile := none
    one_month_return := none, one_month_return_percentile := none
    momentum_score := none }

/-- Scenario A, row Y: price 20, one-year return -0.1. -/
def rowY : HqmRow :=
  { ticker := "Y", stock_price := 20, num_of_shares_to_buy := none
    one_year_return := some (-1/10), one_year_return_percentile := none
    six_month_return := none, six_month_return_percentile := none
    three_month_return := none, three_month_return_percentile := none
    one_month_return := none, one_month_return_percentile := none
    momentum_score := none }

/-! ### Claim C3 -/

/-- Claim C3: with positive prices and a positive budget `B`,
`position_size = B / count(rows)` over the final row set, every row's
share count is `floor(position_size / price)`, hence
`shares * price ≤ position_size` for every row; concretely, for prices 10
and 20 with budget 100 the position size is 50 and the share counts are 5
and 2. -/
theorem C3_share_allocation (B : ℚ) (hB : 0 < B) (rows : List HqmRow)
    (hp : ∀ r ∈ rows, 0 < r.stock_price) :
    (allocate B rows).map HqmRow.num_of_shares_to_buy
      = rows.map (fun r =>
          some (Int.floor (position_size B rows.length / r.stock_price)))
    ∧ (∀ r ∈ rows,
        ((Int.floor (position_size B rows.length / r.stock_price) : ℚ))
          * r.stock_price ≤ position_size B rows.length)
    ∧ position_size 100 2 = 50
    ∧ (allocate 100 [rowX, rowY]).map HqmRow.num_of_shares_to_buy
        = [some 5, some 2] := by
  refine ⟨by simp [allocate], ?_, by norm_num [position_size], ?_⟩
  · intro r hr
    have hpr := hp r hr
    calc ((Int.floor (position_size B rows.length / r.stock_price) : ℚ))
          * r.stock_price
        ≤ (position_size B rows.length / r.stock_price) * r.stock_price :=
          mul_le_mul_of_nonneg_right (Int.floor_le _) (le_of_lt hpr)
      _ = position_size B rows.length := div_mul_cancel₀ _ (ne_of_gt hpr)
  · norm_num [allocate, position_size, rowX, rowY]

lemma rowXY_prices_pos : ∀ r ∈ [rowX, rowY], 0 < r.stock_price := by
  intro r hr
  rcases List.mem_cons.mp hr with rfl | hr
  · norm_num [rowX]
  · rcases List.mem_cons.mp hr with rfl | hr
    · norm_num [rowY]
    · cases hr

lemma rowX_price_pos : ∀ r ∈ [rowX], 0 < r.stock_price := by
  intro r hr
  rcases List.mem_cons.mp hr with rfl | hr
  · norm_num [rowX]
  · cases hr

/-- Claim C3, witness at budget 100 over the Scenario-A rows. -/
theorem C3_share_allocation_witness :
    ((0 : ℚ) < 100 ∧ ∀ r ∈ [rowX, rowY], 0 < r.stock_price)
    ∧ ((allocate 100 [rowX, rowY]).map HqmRow.num_of_shares_to_buy
        = [rowX, rowY].map (fun r =>
            some (Int.floor (position_size 100 ([rowX, rowY] : List HqmRow).length
              / r.stock_price)))
      ∧ (∀ r ∈ [rowX, rowY],
          ((Int.floor (position_size 100 ([rowX, rowY] : List HqmRow).length
              / r.stock_price) : ℚ)) * r.stock_price
            ≤ position_size 100 ([rowX, rowY] : List HqmRow).length)
      ∧ position_size 100 2 = 50
      ∧ (allocate 100 [rowX, rowY]).map HqmRow.num_of_shares_to_buy
          = [some 5, some 2]) :=
  ⟨⟨by norm_num, rowXY_prices_pos⟩,
   C3_share_allocation 100 (by norm_num) [rowX, rowY] rowXY_prices_pos⟩

/-! ### Claim C8 -/

/-- Claim C8 (amended): a zero or negative budget is not validated anywhere
— no `ValidationError` exists in the code and the budget is only ever used
after all fetching, inside the allocation loop, which completes normally
and writes a non-positive share count into every row. -/
theorem C8_budget_not_validated (B : ℚ) (hB : B ≤ 0) (rows : List HqmRow)
    (hp : ∀ r ∈ rows, 0 < r.stock_price) :
    (allocate B rows).length = rows.length
    ∧ ∀ r' ∈ allocate B rows, ∃ s : ℤ, r'.num_of_shares_to_buy = some s ∧ s ≤ 0 := by
  constructor
  · simp [allocate]
  · intro r' hr'
    rcases List.mem_map.mp hr' with ⟨r, hr, rfl⟩
    refine ⟨_, rfl, ?_⟩
    have hpr := hp r hr
    have hps : position_size B rows.length ≤ 0 := by
      unfold position_size
      exact div_nonpos_iff.mpr (Or.inr ⟨hB, by positivity⟩)
    have hdiv : position_size B rows.length / r.stock_price ≤ 0 :=
      div_nonpos_iff.mpr (Or.inr ⟨hps, le_of_lt hpr⟩)
    calc Int.floor (position_size B rows.length / r.stock_price)
        ≤ Int.floor (0 : ℚ) := Int.floor_le_floor hdiv
      _ = 0 := Int.floor_zero

/-- Claim C8, witness at budget 0 over the single row X. -/
theorem C8_budget_not_validated_witness :
    ((0 : ℚ) ≤ 0 ∧ ∀ r ∈ [rowX], 0 < r.stock_price)
    ∧ ((allocate 0 [rowX]).length = ([rowX] : List HqmRow).length
      ∧ ∀ r' ∈ allocate 0 [rowX], ∃ s : ℤ,
          r'.num_of_shares_to_buy = some s ∧ s ≤ 0) :=
  ⟨⟨le_refl 0, rowX_price_pos⟩,
   C8_budget_not_validated 0 (le_refl 0) [rowX] rowX_price_pos⟩

/-- Claim C8 counterexample: with budget 0 (and with budget -100) the run
does not fail at all — allocation completes and returns a plan, with share
counts 0 and -10 for the price-10 row — so no `ValidationError` is ever
surfaced for a non-positive budget. -/
theorem C8_budget_counterexample :
    (allocate 0 [rowX]).map HqmRow.num_of_shares_to_buy = [some 0]
    ∧ (allocate (-100) [rowX]).map HqmRow.num_of_shares_to_buy = [some (-10)] := by
  constructor <;> norm_num [allocate, position_size, rowX]

/-! ### Claim C10 -/

/-- Claim C10: the share-calculation loop writes only the
`num_of_shares_to_buy` column: in both notebooks' tables the ticker, price,
market-cap, every return, every percentile and the momentum score of every
row, the number of rows, and the relative order of the rows are unchanged
by allocation. -/
theorem C10_allocation_frame (B : ℚ) (rows : List HqmRow) (rowsE : List EqRow) :
    (allocate B rows).map HqmRow.ticker = rows.map HqmRow.ticker
    ∧ (allocate B rows).map HqmRow.stock_price = rows.map HqmRow.stock_price
    ∧ (allocate B rows).map HqmRow.one_year_return = rows.map HqmRow.one_year_return
    ∧ (allocate B rows).map HqmRow.one_year_return_percentile
        = rows.map HqmRow.one_year_return_percentile
    ∧ (allocate B rows).map HqmRow.six_month_return = rows.map HqmRow.six_month_return
    ∧ (allocate B rows).map HqmRow.six_month_return_percentile
        = rows.map HqmRow.six_month_return_percentile
    ∧ (allocate B rows).map HqmRow.three_month_return
        = rows.map HqmRow.three_month_return
    ∧ (allocate B rows).map HqmRow.three_month_return_percentile
        = rows.map HqmRow.three_month_return_percentile
    ∧ (allocate B rows).map HqmRow.one_month_return = rows.map HqmRow.one_month_return
    ∧ (allocate B rows).map HqmRow.one_month_return_percentile
        = rows.map HqmRow.one_month_return_percentile
    ∧ (allocate B rows).map HqmRow.momentum_score = rows.map HqmRow.momentum_score
    ∧ (allocate B rows).length = rows.length
    ∧ (allocateEq B rowsE).map EqRow.ticker = rowsE.map EqRow.ticker
    ∧ (allocateEq B rowsE).map EqRow.stock_price = rowsE.map EqRow.stock_price
    ∧ (allocateEq B rowsE).map EqRow.market_cap = rowsE.map EqRow.market_cap
    ∧ (allocateEq B rowsE).length = rowsE.length := by
  refine ⟨?_, ?_, ?_, ?_, ?_, ?_, ?_, ?_, ?_, ?_, ?_, ?_, ?_, ?_, ?_, ?_⟩ <;>
    simp [allocate, allocateEq, List.map_map, Function.comp]

/-! ### Claim C5 -/

lemma buildRows_error_of_missing (batch : List String)
    (data : String → Option QuoteData) :
    ∀ sym ∈ batch, data sym = none → ∃ e, buildRows batch data = Except.error e := by
  induction batch with
  | nil => intro sym h; cases h
  | cons b bs ih =>
    intro sym hmem hmiss
    rcases List.mem_cons.mp hmem with rfl | hmem'
    · exact ⟨"KeyError: " ++ sym, by simp [buildRows, hmiss]⟩
    · cases hd : data b with
      | none => exact ⟨"KeyError: " ++ b, by simp [buildRows, hd]⟩
      | some d =>
        obtain ⟨e, he⟩ := ih sym hmem' hmiss
        exact ⟨e, by simp [buildRows, hd, he]⟩

lemma mem_dropna_iff (rows : List HqmRow) (r : HqmRow) :
    r ∈ dropna_one_year rows ↔ r ∈ rows ∧ r.one_year_return.isSome := by
  simp [dropna_one_year, List.mem_filter]

/-- A row whose one-year return is present but whose six-month return is the
null sentinel; it models a symbol the API answered with partial data. -/
def rowN : HqmRow :=
  { ticker := "N", stock_price := 5, num_of_shares_to_buy := none
    one_year_return := some (1/10), one_year_return_percentile := none
    six_month_return := none, six_month_return_percentile := none
    three_month_return := some 0, three_month_return_percentile := none
    one_month_return := some 0, one_month_return_percentile := none
    momentum_score := none }

/-- A batch result that answers for symbol `"A"` only. -/
def fetchAB : String → Option QuoteData := fun s =>
  if s = "A" then
    some { price := 10, year1ChangePercent := some (1/10)
           month6ChangePercent := some 0, month3ChangePercent := some 0
           month1ChangePercent := some 0 }
  else none

/-- Claim C5 (amended): a requested symbol missing from a fetched batch is
not dropped — indexing `data[symbol]` raises `KeyError`, the build fails
and the run aborts; of the null/sentinel return values only a null
one-year return causes the row to be dropped
(`dropna(subset=["one_year_return"])`), while a row whose other return
fields are null is retained and reaches percentile computation; no
dropped-symbol set is computed or reported to the caller. -/
theorem C5_partial_failure (batch : List String) (data : String → Option QuoteData)
    (sym : String) (hmem : sym ∈ batch) (hmiss : data sym = none)
    (rows : List HqmRow) :
    (∃ e, buildRows batch data = Except.error e)
    ∧ (∀ r ∈ dropna_one_year rows, r.one_year_return.isSome)
    ∧ (∀ r ∈ rows, r.one_year_return.isSome → r ∈ dropna_one_year rows) :=
  ⟨buildRows_error_of_missing batch data sym hmem hmiss,
   fun r hr => ((mem_dropna_iff rows r).mp hr).2,
   fun r hr hs => (mem_dropna_iff rows r).mpr ⟨hr, hs⟩⟩

/-- Claim C5, witness at a two-symbol batch whose result lacks `"B"`, and
the one-row table holding `rowN`. -/
theorem C5_partial_failure_witness :
    ("B" ∈ ["A", "B"] ∧ fetchAB "B" = none)
    ∧ ((∃ e, buildRows ["A", "B"] fetchAB = Except.error e)
      ∧ (∀ r ∈ dropna_one_year [rowN], r.one_year_return.isSome)
      ∧ (∀ r ∈ [rowN], r.one_year_return.isSome → r ∈ dropna_one_year [rowN])) :=
  ⟨⟨by simp, by simp [fetchAB]⟩,
   C5_partial_failure ["A", "B"] fetchAB "B" (by simp) (by simp [fetchAB]) [rowN]⟩

/-- Claim C5 counterexample: `rowN` carries a null six-month return, yet it
survives `dropna(subset=["one_year_return"])`, so a row with a
null/sentinel return value is NOT excluded from the Universe before
percentile computation. -/
theorem C5_partial_failure_counterexample :
    dropna_one_year [rowN] = [rowN] ∧ rowN.six_month_return = none := by
  constructor
  · simp [dropna_one_year, rowN]
  · rfl

/-! ### Claim C2 -/

/-- A one-row universe whose four returns are all zero: each of its four
percentiles is 1.0 while each raw return is 0.0. -/
def rowZ : HqmRow :=
  { ticker := "Z", stock_price := 1, num_of_shares_to_buy := none
    one_year_return := some 0, one_year_return_percentile := none
    six_month_return := some 0, six_month_return_percentile := none
    three_month_return := some 0, three_month_return_percentile := none
    one_month_return := some 0, one_month_return_percentile := none
    momentum_score := none }

/-- Claim C2 (code bug): the notebook's markdown defines the HQM score as
"the arithmetic mean of the 4 momentum percentile scores", but cell 23
builds `momentum_percentiles` from the `{time_period}_return` columns —
the raw returns — and averages those instead of the
`{time_period}_return_percentile` columns. On the one-row universe
`[rowZ]` all four percentiles are 1.0 and the documented score is 1.0, yet
the code stores 0.0, the mean of the raw returns. -/
theorem C2_momentum_score_raw_return_bug :
    (computeMomentum (computePercentiles [rowZ])).map HqmRow.momentum_score
      = [some 0]
    ∧ (computePercentiles [rowZ]).map percentileMean = [some 1]
    ∧ some (0 : ℚ) ≠ some (1 : ℚ) := by
  refine ⟨?_, ?_, by norm_num⟩ <;>
    norm_num [computeMomentum, computePercentiles, computeRowPercentiles,
      momentum_score_update, percentileMean, column, rowZ,
      returnPercentile, percentileofscore, List.filter,
      List.filterMap_cons, List.filterMap_nil]

/-! ### Claim C6 -/

/-- The selector `hqm_df.sort_values(by="momentum_score", ascending=False)[:N]`
of cell 25 as pandas executes it: `nargsort` computes the ASCENDING argsort
of the key column — numpy's default `kind='quicksort'` runs a stable
insertion sort below its 17-element cutoff, modelled here by a stable
insertion sort — and, because `ascending=False`, reverses the whole
indexer (`indexer = indexer[::-1]`); the slice `[:N]` then keeps the
first `min(N, len)` rows. -/
def sort_values_desc (key : HqmRow → ℚ) (N : ℕ) (rows : List HqmRow) : List HqmRow :=
  ((List.insertionSort (fun a b => key a ≤ key b) rows).reverse).take N

/-- The sort key of cell 25: the `momentum_score` column (every row sorted
there has a computed score; a missing score reads as 0). -/
def momentum_key (r : HqmRow) : ℚ := r.momentum_score.getD 0

/-- First of two rows tied at momentum score 0.5; original order: `tieA`
before `tieB`. -/
def tieA : HqmRow :=
  { ticker := "A", stock_price := 1, num_of_shares_to_buy := none
    one_year_return := none, one_year_return_percentile := none
    six_month_return := none, six_month_return_percentile := none
    three_month_return := none, three_month_return_percentile := none
    one_month_return := none, one_month_return_percentile := none
    momentum_score := some (1/2) }

/-- Second of two rows tied at momentum score 0.5. -/
def tieB : HqmRow :=
  { ticker := "B", stock_price := 1, num_of_shares_to_buy := none
    one_year_return := none, one_year_return_percentile := none
    six_month_return := none, six_month_return_percentile := none
    three_month_return := none, three_month_return_percentile := none
    one_month_return := none, one_month_return_percentile := none
    momentum_score := some (1/2) }

/-- Claim C6 (amended): the selector keeps the first `min(N, |rows|)` rows
of the table sorted descending by composite score, and with `N = |rows|`
its output is a permutation of the input; being a pure function of the
input, re-running it on the same rows yields the same ordered output; but
ties are NOT broken by original symbol order — pandas reverses the
ascending argsort to produce a descending sort, so equal-score rows come
out in reversed original order, as the two tied rows `tieA`, `tieB`
show. -/
theorem C6_selector_sorts_and_reverses_ties (key : HqmRow → ℚ) (N : ℕ)
    (rows : List HqmRow) :
    (sort_values_desc key N rows).length = min N rows.length
    ∧ (sort_values_desc key N rows).Pairwise (fun a b => key b ≤ key a)
    ∧ (sort_values_desc key rows.length rows).Perm rows
    ∧ sort_values_desc momentum_key 50 [tieA, tieB] = [tieB, tieA] := by
  haveI : IsTotal HqmRow (fun a b => key a ≤ key b) := ⟨fun a b => le_total _ _⟩
  haveI : IsTrans HqmRow (fun a b => key a ≤ key b) :=
    ⟨fun a b c hab hbc => le_trans hab hbc⟩
  refine ⟨?_, ?_, ?_, ?_⟩
  · simp [sort_values_desc, List.length_take, List.length_insertionSort]
  · have hs := List.sorted_insertionSort (fun a b => key a ≤ key b) rows
    have hrev : (List.insertionSort (fun a b => key a ≤ key b) rows).reverse.Pairwise
        (flip (fun a b => key a ≤ key b)) := List.pairwise_reverse.mpr hs
    exact hrev.sublist (List.take_sublist _ _)
  · have h1 : (List.insertionSort (fun a b => key a ≤ key b) rows).reverse.length
        = rows.length := by
      simp [List.length_insertionSort]
    rw [sort_values_desc, List.take_of_length_le (le_of_eq h1)]
    exact (List.reverse_perm _).trans (List.perm_insertionSort _ rows)
  · norm_num [sort_values_desc, List.insertionSort, List.orderedInsert,
      tieA, tieB, momentum_key]

/-- Claim C6 counterexample: two distinct rows tied at the same composite
score, in original symbol order A before B, are returned by the selector
as `[tieB, tieA]` — the tie is broken by REVERSED original order, so the
claimed stable original-order tie-break fails. -/
theorem C6_selector_counterexample :
    sort_values_desc momentum_key 50 [tieA, tieB] = [tieB, tieA]
    ∧ tieA.ticker = "A" ∧ tieB.ticker = "B"
    ∧ momentum_key tieA = momentum_key tieB
    ∧ [tieB, tieA] ≠ [tieA, tieB] := by
  refine ⟨?_, rfl, rfl, rfl, ?_⟩
  · norm_num [sort_values_desc, List.insertionSort, List.orderedInsert,
      tieA, tieB, momentum_key]
  · intro h
    have := congrArg (fun l => l.map HqmRow.ticker) h
    simp [tieA, tieB] at this

end AlgoTrading
